import Mathlib

/-!
Shallow embedding of the pluggable goroutine-scheduler core of this
repository (the default implementation inlined in SCHEDULER_INTERFACE.md
and the example policies of src/runtime/scheduler_experimental.go),
together with proofs of the specification claims about it.

Task handles (the runtime's goroutine pointers) are modelled as opaque
naturals.  State mutation is modelled by explicit state passing.  The
runtime helper functions the default scheduler delegates to (runqput,
runqget, globrunqput, globrunqgetbatch, runqputbatch, stealWork) are not
part of the sources; each is modelled from the specification, as marked
on its definition.  The compare-and-swap on the run-next slot is
modelled by its sequential (uncontended) behaviour.
-/

namespace Moriarty

/-- Task handles, modelled as opaque naturals. -/
abbrev Task : Type := Nat

/-- Processor state: the per-P fields the scheduler reads (run-next slot,
local ring oldest-first, scheduler tick counter). -/
structure P where
  runnext : Option Task
  runq : List Task
  schedtick : Nat
  deriving DecidableEq

/-- Capacity of the per-processor local ring: in the runtime, pp.runq is a
256-element array, so len(pp.runq) is 256. -/
def runqSize : Nat := 256

/-- Scheduler state visible to the queue operations: one processor plus the
global run queue (sched.runq), oldest task first. -/
structure State where
  pp : P
  globrunq : List Task
  deriving DecidableEq

/-- Modelled from the spec: runqput with runNext false appends to the ring;
if the ring is full, the oldest half of its contents plus the new task move
to the global run queue as one batch (runqput and runqputslow are not part
of the sources). -/
def runqput (s : State) (gp : Task) : State :=
  if s.pp.runq.length < runqSize then
    { s with pp := { s.pp with runq := s.pp.runq ++ [gp] } }
  else
    { s with
      pp := { s.pp with runq := s.pp.runq.drop (runqSize / 2) },
      globrunq := s.globrunq ++ s.pp.runq.take (runqSize / 2) ++ [gp] }

/-- Modelled from the spec: globrunqput appends at the tail of the FIFO
global run queue (globrunqput is not part of the sources). -/
def globrunqput (s : State) (gp : Task) : State :=
  { s with globrunq := s.globrunq ++ [gp] }

/-- Modelled from the spec: popOwn returns the run-next slot if occupied
(inheriting the time slice), else the newest ring entry (runqget is not
part of the sources). -/
def runqget (pp : P) : Option Task × Bool × P :=
  match pp.runnext with
  | some gp => (some gp, true, { pp with runnext := none })
  | none =>
    match pp.runq.getLast? with
    | some gp => (some gp, false, { pp with runq := pp.runq.dropLast })
    | none => (none, false, pp)

/-- Modelled from the spec: batch-pop takes up to n tasks from the front of
the FIFO global run queue, returning the first task to run, the rest of the
batch, and the remaining queue (globrunqgetbatch is not part of the
sources). -/
def globrunqgetbatch (q : List Task) (n : Nat) : Option Task × List Task × List Task :=
  if n = 0 then (none, [], q)
  else
    match q with
    | [] => (none, [], q)
    | g :: t => (some g, t.take (n - 1), t.drop (n - 1))

/-- Modelled from the spec: refill the local ring with as much of the batch
as fits and return the updated processor together with the leftover tasks
(runqputbatch is not part of the sources). -/
def runqputbatch (pp : P) (batch : List Task) : P × List Task :=
  ({ pp with runq := pp.runq ++ batch.take (runqSize - pp.runq.length) },
   batch.drop (runqSize - pp.runq.length))

/-- GetFromGlobalQueue of the default scheduler, from the sources: return
nil on the lock-free empty hint; otherwise pop a batch of up to half the
local ring capacity under the lock, return the first task, refill the local
ring with the rest, and re-push any overflow back onto the global queue. -/
def GetFromGlobalQueue (s : State) : Option Task × State :=
  if s.globrunq.isEmpty then (none, s)
  else
    match globrunqgetbatch s.globrunq (runqSize / 2) with
    | (none, _, _) => (none, s)
    | (some gp, batch, rest) =>
      let pr := runqputbatch s.pp batch
      (some gp, ⟨pr.1, rest ++ pr.2⟩)

/-- CheckGlobalQueue of the default scheduler, from the sources: true when
the scheduler tick hits modulus 61 and the lock-free emptiness hint on the
global run queue reports non-empty. -/
def CheckGlobalQueue (pp : P) (grq : List Task) : Bool :=
  pp.schedtick % 61 == 0 && !grq.isEmpty

/-- CheckGlobalQueue of the priorityScheduler, from the sources: modulus 31
for better fairness. -/
def priorityCheckGlobalQueue (pp : P) (grq : List Task) : Bool :=
  pp.schedtick % 31 == 0 && !grq.isEmpty

/-- CheckGlobalQueue of the fifoScheduler, from the sources: modulus 127
for stronger local affinity. -/
def fifoCheckGlobalQueue (pp : P) (grq : List Task) : Bool :=
  pp.schedtick % 127 == 0 && !grq.isEmpty

/-- CheckGlobalQueue of the workStealingScheduler, from the sources:
modulus 101, preferring work stealing over global queue checks. -/
def wsCheckGlobalQueue (pp : P) (grq : List Task) : Bool :=
  pp.schedtick % 101 == 0 && !grq.isEmpty

/-- QueueTask of the default scheduler, from the sources: with local set
and a target processor present, honour runNext by swapping the run-next
slot (a displaced occupant is runqput onto the ring) or runqput directly;
otherwise push onto the global run queue under the scheduler lock. -/
def QueueTask (s : State) (gp : Task) (hasP next lcl : Bool) : State :=
  if lcl && hasP then
    if next then
      match s.pp.runnext with
      | some oldnext => runqput { s with pp := { s.pp with runnext := some gp } } oldnext
      | none => { s with pp := { s.pp with runnext := some gp } }
    else
      runqput s gp
  else
    globrunqput s gp

/-- Full state consulted by NextTask: the injected-work probes (trace
reader, GC worker), the queue state, and the outcome of the work-stealing
probe (the stolen task and its inherit-time flag, when stealing would
succeed). -/
structure Runtime where
  traceWork : Option Task
  gcWork : Option Task
  st : State
  stealResult : Option (Task × Bool)
  deriving DecidableEq

/-- Modelled from the spec: the runtime stealWork scans victims and reports
either a stolen task with its inherit-time flag or that no work was found,
together with the current time, a poll deadline, and a new-work flag
(stealWork is not part of the sources). -/
def stealWork (r : Runtime) (now : Int) : Option Task × Bool × Int × Int × Bool :=
  match r.stealResult with
  | some (gp, inh) => (some gp, inh, now, 0, true)
  | none => (none, false, now, 0, false)

/-- StealWork of the default scheduler, from the sources: a pure delegation
to the runtime stealWork. -/
def StealWork (r : Runtime) (now : Int) : Option Task × Bool × Int × Int × Bool :=
  stealWork r now

/-- GetFromLocalQueue of the default scheduler, from the sources: a pure
delegation to runqget. -/
def GetFromLocalQueue (pp : P) : Option Task × Bool × P :=
  runqget pp

/-- NextTask of the default scheduler, from the sources, parametrised by
the CheckGlobalQueue predicate it consults: trace reader, then GC worker,
then the global queue when the fairness check holds, then the local queue,
then the global queue again, then work stealing; nil with no inherit and no
wake when every source fails. -/
def NextTask (check : P → List Task → Bool) (r : Runtime) : Option Task × Bool × Bool :=
  match r.traceWork with
  | some gp => (some gp, false, true)
  | none =>
    match r.gcWork with
    | some gp => (some gp, false, true)
    | none =>
      match (if check r.st.pp r.st.globrunq then GetFromGlobalQueue r.st else (none, r.st)) with
      | (some gp, _) => (some gp, false, false)
      | (none, s1) =>
        match GetFromLocalQueue s1.pp with
        | (some gp, inh, _) => (some gp, inh, false)
        | (none, _, pp1) =>
          match GetFromGlobalQueue ⟨pp1, s1.globrunq⟩ with
          | (some gp, _) => (some gp, false, false)
          | (none, _) =>
            match StealWork r 0 with
            | (some gp, inh, _, _, _) => (some gp, inh, false)
            | (none, _, _, _, _) => (none, false, false)

/-- Method table of a scheduler, mirroring the Go Scheduler interface. -/
structure GoScheduler where
  nextTask : Runtime → Option Task × Bool × Bool
  queueTask : State → Task → Bool → Bool → Bool → State
  stealW : Runtime → Int → Option Task × Bool × Int × Int × Bool
  getFromLocalQueue : P → Option Task × Bool × P
  getFromGlobalQueue : State → Option Task × State
  checkGlobalQueue : P → List Task → Bool

/-- schedulerImpl, the default scheduler, from the sources.  Its NextTask
consults its own CheckGlobalQueue. -/
def schedulerImpl : GoScheduler where
  nextTask := NextTask CheckGlobalQueue
  queueTask := QueueTask
  stealW := StealWork
  getFromLocalQueue := GetFromLocalQueue
  getFromGlobalQueue := GetFromGlobalQueue
  checkGlobalQueue := CheckGlobalQueue

/-- priorityScheduler, from the sources: embeds schedulerImpl, overriding
CheckGlobalQueue (modulus 31) and GetFromLocalQueue (an explicit delegation
back to the default).  Go method promotion is static: the promoted NextTask
is schedulerImpl.NextTask itself, whose internal CheckGlobalQueue call
resolves to the embedded schedulerImpl's method. -/
def priorityScheduler : GoScheduler :=
  { schedulerImpl with
    checkGlobalQueue := priorityCheckGlobalQueue
    getFromLocalQueue := schedulerImpl.getFromLocalQueue }

/-- fifoScheduler, from the sources: embeds schedulerImpl, overriding only
CheckGlobalQueue (modulus 127). -/
def fifoScheduler : GoScheduler :=
  { schedulerImpl with checkGlobalQueue := fifoCheckGlobalQueue }

/-- workStealingScheduler, from the sources: embeds schedulerImpl,
overriding only CheckGlobalQueue (modulus 101). -/
def workStealingScheduler : GoScheduler :=
  { schedulerImpl with checkGlobalQueue := wsCheckGlobalQueue }

/-- C2: the default CheckGlobalQueue returns true iff the scheduler tick is
congruent to 0 modulo 61 and the global run queue's emptiness hint reports
non-empty; consequently, with the global queue continuously non-empty, in
any window of 61 consecutive ticks the processor consults the global queue
at least once. -/
theorem checkGlobalQueue_default_iff_and_fairness :
    ∀ (pp : P) (grq : List Task),
      (CheckGlobalQueue pp grq = true ↔ pp.schedtick % 61 = 0 ∧ grq ≠ [])
      ∧ (grq ≠ [] → ∀ t : Nat, ∃ k : Nat, k < 61 ∧
          CheckGlobalQueue ⟨pp.runnext, pp.runq, t + k⟩ grq = true) := by
  intro pp grq
  constructor
  · cases grq <;> simp [CheckGlobalQueue]
  · intro hne t
    refine ⟨(61 - t % 61) % 61, by omega, ?_⟩
    simp [CheckGlobalQueue]
    exact ⟨by omega, by cases grq <;> simp_all⟩

/-- C2 witness: at tick 61 and a singleton queue the check holds, and from
tick 5 the fairness bound produces a consulting tick within 61 steps. -/
theorem checkGlobalQueue_default_witness :
    CheckGlobalQueue ⟨none, [], 61⟩ [7] = true ∧
      ∃ k : Nat, k < 61 ∧ CheckGlobalQueue ⟨none, [], 5 + k⟩ [7] = true := by
  refine ⟨?_, ?_⟩
  · exact ((checkGlobalQueue_default_iff_and_fairness ⟨none, [], 61⟩ [7]).1).2
      (by decide)
  · exact (checkGlobalQueue_default_iff_and_fairness ⟨none, [], 61⟩ [7]).2
      (by decide) 5

/-- C5: the three example policies differ in their global-queue cadence
exactly as specified; priorityScheduler checks modulus 31, fifoScheduler
modulus 127, workStealingScheduler modulus 101, each conjoined with the
global queue non-emptiness hint. -/
theorem policy_checkGlobalQueue_moduli :
    ∀ (pp : P) (grq : List Task),
      (priorityScheduler.checkGlobalQueue pp grq = true ↔
        pp.schedtick % 31 = 0 ∧ grq ≠ [])
      ∧ (fifoScheduler.checkGlobalQueue pp grq = true ↔
        pp.schedtick % 127 = 0 ∧ grq ≠ [])
      ∧ (workStealingScheduler.checkGlobalQueue pp grq = true ↔
        pp.schedtick % 101 = 0 ∧ grq ≠ []) := by
  intro pp grq
  refine ⟨?_, ?_, ?_⟩ <;>
    cases grq <;>
      simp [priorityScheduler, fifoScheduler, workStealingScheduler,
        priorityCheckGlobalQueue, fifoCheckGlobalQueue, wsCheckGlobalQueue]

/-- C3: QueueTask places the task into the target processor's local run
queue (honouring the runNext flag) exactly when local is set and a target
processor is given; in every other case the task is appended to the global
run queue. -/
theorem queueTask_placement :
    ∀ (s : State) (gp : Task) (next : Bool),
      (∀ hasP lcl : Bool, hasP = false ∨ lcl = false →
        QueueTask s gp hasP next lcl = { s with globrunq := s.globrunq ++ [gp] })
      ∧ QueueTask s gp true false true = runqput s gp
      ∧ (QueueTask s gp true true true).pp.runnext = some gp := by
  intro s gp next
  refine ⟨?_, ?_, ?_⟩
  · intro hasP lcl h
    rcases h with h | h <;> subst h <;> simp [QueueTask, globrunqput]
  · simp [QueueTask]
  · cases h : s.pp.runnext with
    | none => simp [QueueTask, h]
    | some old =>
      simp only [QueueTask, h, Bool.and_self, if_true, runqput]
      split <;> simp

/-- C3 witness: queuing task 4 with no target processor appends it to the
global queue. -/
theorem queueTask_placement_witness :
    QueueTask ⟨⟨none, [], 0⟩, [9]⟩ 4 false true false
      = ⟨⟨none, [], 0⟩, [9, 4]⟩ :=
  (queueTask_placement ⟨⟨none, [], 0⟩, [9]⟩ 4 true).1 false false (Or.inl rfl)

/-- C4: a runNext push onto an occupied run-next slot replaces the occupant
and appends the displaced task to the ring; in particular, after two
consecutive runNext pushes onto an initially empty processor, the slot
holds the second task and the first is in the ring, not dropped. -/
theorem queueTask_runnext_displacement :
    ∀ (tick : Nat) (gq : List Task) (t1 t2 : Task),
      ((QueueTask (QueueTask ⟨⟨none, [], tick⟩, gq⟩ t1 true true true) t2 true true true).pp.runnext
          = some t2
        ∧ t1 ∈ (QueueTask (QueueTask ⟨⟨none, [], tick⟩, gq⟩ t1 true true true) t2 true true true).pp.runq)
      ∧ (∀ (s : State) (old : Task), s.pp.runnext = some old →
          s.pp.runq.length < runqSize →
          (QueueTask s t2 true true true).pp.runnext = some t2
          ∧ (QueueTask s t2 true true true).pp.runq = s.pp.runq ++ [old]) := by
  intro tick gq t1 t2
  refine ⟨?_, ?_⟩
  · simp [QueueTask, runqput, runqSize]
  · intro s old h hlen
    simp [QueueTask, h, runqput, hlen]

/-- C4 witness: pushing tasks 1 then 2 with runNext onto an empty processor
leaves 2 in the run-next slot and 1 in the ring, and the general
displacement clause applies to a processor whose slot holds 5. -/
theorem queueTask_runnext_displacement_witness :
    ((QueueTask (QueueTask ⟨⟨none, [], 0⟩, []⟩ 1 true true true) 2 true true true).pp.runnext
        = some 2
      ∧ 1 ∈ (QueueTask (QueueTask ⟨⟨none, [], 0⟩, []⟩ 1 true true true) 2 true true true).pp.runq)
    ∧ ((QueueTask ⟨⟨some 5, [8], 0⟩, []⟩ 2 true true true).pp.runnext = some 2
      ∧ (QueueTask ⟨⟨some 5, [8], 0⟩, []⟩ 2 true true true).pp.runq = [8] ++ [5]) :=
  ⟨(queueTask_runnext_displacement 0 [] 1 2).1,
   (queueTask_runnext_displacement 0 [] 1 2).2 ⟨⟨some 5, [8], 0⟩, []⟩ 5 rfl
     (by decide)⟩

/-- C9: the default NextTask never blocks; when the trace and GC probes,
the local queue, the global queue, and the steal probe all yield nothing,
it returns nil with inheritTime false and tryWakeP false, leaving parking
to the caller. -/
theorem nextTask_default_no_work_returns_nil :
    ∀ r : Runtime, r.traceWork = none → r.gcWork = none →
      r.st.pp.runnext = none → r.st.pp.runq = [] → r.st.globrunq = [] →
      r.stealResult = none →
      NextTask CheckGlobalQueue r = (none, false, false) := by
  intro r h1 h2 h3 h4 h5 h6
  obtain ⟨tw, gw, ⟨⟨rn, rq, tk⟩, gq⟩, sr⟩ := r
  simp_all [NextTask, GetFromGlobalQueue, GetFromLocalQueue, runqget,
    StealWork, stealWork, CheckGlobalQueue]

/-- C9 witness: on a concrete fully empty state the default NextTask
returns nil, false, false. -/
theorem nextTask_default_no_work_witness :
    NextTask CheckGlobalQueue ⟨none, none, ⟨⟨none, [], 3⟩, []⟩, none⟩
      = (none, false, false) :=
  nextTask_default_no_work_returns_nil ⟨none, none, ⟨⟨none, [], 3⟩, []⟩, none⟩
    rfl rfl rfl rfl rfl rfl

/-- Helper: on a non-empty global queue, GetFromGlobalQueue pops the head
as the task to run, refills the local ring with up to 127 further tasks,
and re-pushes the leftover behind the remaining queue. -/
theorem getFromGlobalQueue_cons (pp : P) (g : Task) (t : List Task) :
    GetFromGlobalQueue ⟨pp, g :: t⟩
      = (some g, ⟨(runqputbatch pp (t.take 127)).1,
          t.drop 127 ++ (runqputbatch pp (t.take 127)).2⟩) := by
  simp [GetFromGlobalQueue, globrunqgetbatch, runqSize]

/-- Helper: interleaving a drop segment between the take and drop halves of
a list is a permutation of appending the two lists. -/
theorem takeDropPerm (T D : List Task) (f : Nat) :
    (T.take f ++ (D ++ T.drop f)).Perm (T ++ D) := by
  refine List.Perm.trans (List.Perm.append_left _ List.perm_append_comm) ?_
  rw [← List.append_assoc, List.take_append_drop]

/-- C1: the default NextTask consults, in order, the trace reader, the GC
worker, the global queue when the fairness check holds, the local queue
(run-next slot then ring), the global queue again unconditionally once the
local queue is empty, and finally work stealing, returning the first task
found; in particular a task sitting only in the global queue is returned
even when the tick condition does not hold. -/
theorem nextTask_default_order :
    ∀ r : Runtime,
      (∀ t, r.traceWork = some t →
        NextTask CheckGlobalQueue r = (some t, false, true))
      ∧ (r.traceWork = none → ∀ t, r.gcWork = some t →
        NextTask CheckGlobalQueue r = (some t, false, true))
      ∧ (r.traceWork = none → r.gcWork = none →
        CheckGlobalQueue r.st.pp r.st.globrunq = true →
        ∀ g rest, r.st.globrunq = g :: rest →
        NextTask CheckGlobalQueue r = (some g, false, false))
      ∧ (r.traceWork = none → r.gcWork = none →
        CheckGlobalQueue r.st.pp r.st.globrunq = false →
        ∀ t, r.st.pp.runnext = some t →
        NextTask CheckGlobalQueue r = (some t, true, false))
      ∧ (r.traceWork = none → r.gcWork = none →
        CheckGlobalQueue r.st.pp r.st.globrunq = false →
        r.st.pp.runnext = none → ∀ l g, r.st.pp.runq = l ++ [g] →
        NextTask CheckGlobalQueue r = (some g, false, false))
      ∧ (r.traceWork = none → r.gcWork = none →
        r.st.pp.runnext = none → r.st.pp.runq = [] →
        ∀ g rest, r.st.globrunq = g :: rest →
        NextTask CheckGlobalQueue r = (some g, false, false))
      ∧ (r.traceWork = none → r.gcWork = none →
        r.st.pp.runnext = none → r.st.pp.runq = [] → r.st.globrunq = [] →
        ∀ t i, r.stealResult = some (t, i) →
        NextTask CheckGlobalQueue r = (some t, i, false)) := by
  intro r
  obtain ⟨tw, gw, ⟨⟨rn, rq, tk⟩, gq⟩, sr⟩ := r
  refine ⟨?_, ?_, ?_, ?_, ?_, ?_, ?_⟩
  · intro t ht
    simp_all [NextTask]
  · intro h1 t ht
    simp_all [NextTask]
  · intro h1 h2 hc g rest hg
    subst h1; subst h2
    simp only at hc hg
    subst hg
    simp [NextTask, hc, getFromGlobalQueue_cons]
  · intro h1 h2 hc t ht
    subst h1; subst h2
    simp only at hc ht
    subst ht
    simp [NextTask, hc, GetFromLocalQueue, runqget]
  · intro h1 h2 hc hn l g hl
    subst h1; subst h2
    simp only at hc hn hl
    subst hn; subst hl
    simp [NextTask, hc, GetFromLocalQueue, runqget, List.getLast?_concat]
  · intro h1 h2 hn hq g rest hg
    subst h1; subst h2
    simp only at hn hq hg
    subst hn; subst hq; subst hg
    cases hc : CheckGlobalQueue ⟨none, [], tk⟩ (g :: rest) <;>
      simp [NextTask, hc, getFromGlobalQueue_cons, GetFromLocalQueue, runqget]
  · intro h1 h2 hn hq hg t i hs
    simp_all [NextTask, CheckGlobalQueue, GetFromGlobalQueue,
      GetFromLocalQueue, runqget, StealWork, stealWork]

/-- C1 witness: a pending trace-reader task is returned first, and a task
sitting only in the global queue is returned at tick 1, where the modulus
61 condition fails. -/
theorem nextTask_default_order_witness :
    NextTask CheckGlobalQueue ⟨some 9, none, ⟨⟨none, [], 1⟩, []⟩, none⟩
        = (some 9, false, true)
      ∧ NextTask CheckGlobalQueue ⟨none, none, ⟨⟨none, [], 1⟩, [7]⟩, none⟩
        = (some 7, false, false) :=
  ⟨(nextTask_default_order ⟨some 9, none, ⟨⟨none, [], 1⟩, []⟩, none⟩).1 9 rfl,
   (nextTask_default_order
      ⟨none, none, ⟨⟨none, [], 1⟩, [7]⟩, none⟩).2.2.2.2.2.1 rfl rfl rfl rfl
      7 [] rfl⟩

/-- C6 counterexample: in a state where the local queue is empty, the tick
condition fails (tick 1), task 1 is stealable and task 0 sits in the global
queue, NextTask under the work-stealing policy returns the global task 0,
not the stolen task 1 — it does not attempt stealing before the
unconditional global fallback.  The same holds for the promoted method the
scheduler actually inherits. -/
theorem workStealing_nextTask_steal_order_cex :
    NextTask wsCheckGlobalQueue ⟨none, none, ⟨⟨none, [], 1⟩, [0]⟩, some (1, true)⟩
        = (some 0, false, false)
      ∧ workStealingScheduler.nextTask
          ⟨none, none, ⟨⟨none, [], 1⟩, [0]⟩, some (1, true)⟩
        = (some 0, false, false)
      ∧ (some 0 : Option Task) ≠ some 1 := by
  refine ⟨rfl, rfl, by decide⟩

/-- C6 amended: under the workStealingScheduler, NextTask keeps the default
order in which the unconditional global-queue fallback precedes work
stealing: with the trace and GC probes empty, the local queue empty, the
tick condition failing, a stolen task available and a task in the global
queue, the global task is returned, not the stolen one. -/
theorem workStealing_nextTask_global_fallback_before_steal :
    ∀ r : Runtime, r.traceWork = none → r.gcWork = none →
      r.st.pp.runnext = none → r.st.pp.runq = [] →
      wsCheckGlobalQueue r.st.pp r.st.globrunq = false →
      ∀ g rest, r.st.globrunq = g :: rest →
      ∀ t i, r.stealResult = some (t, i) →
      NextTask wsCheckGlobalQueue r = (some g, false, false) := by
  intro r h1 h2 hn hq hc g rest hg t i hs
  obtain ⟨tw, gw, ⟨⟨rn, rq, tk⟩, gq⟩, sr⟩ := r
  simp only at h1 h2 hn hq hc hg hs
  subst h1; subst h2; subst hn; subst hq; subst hg
  simp [NextTask, hc, getFromGlobalQueue_cons, GetFromLocalQueue, runqget]

/-- C6 amended witness: the concrete state of the counterexample satisfies
the amended statement, returning the global task 0. -/
theorem workStealing_nextTask_global_fallback_witness :
    NextTask wsCheckGlobalQueue ⟨none, none, ⟨⟨none, [], 1⟩, [0]⟩, some (1, true)⟩
      = (some 0, false, false) :=
  workStealing_nextTask_global_fallback_before_steal
    ⟨none, none, ⟨⟨none, [], 1⟩, [0]⟩, some (1, true)⟩
    rfl rfl rfl rfl rfl 0 [] rfl 1 true rfl

/-- C7: GetFromGlobalQueue never loses a task: the returned task, the
resulting local ring, and the resulting global queue together form a
permutation of the original local ring and global queue, and the run-next
slot is untouched. -/
theorem getFromGlobalQueue_preserves_tasks :
    ∀ s : State,
      ((GetFromGlobalQueue s).1.toList ++ (GetFromGlobalQueue s).2.pp.runq
          ++ (GetFromGlobalQueue s).2.globrunq).Perm
        (s.pp.runq ++ s.globrunq)
      ∧ (GetFromGlobalQueue s).2.pp.runnext = s.pp.runnext := by
  intro s
  obtain ⟨⟨rn, rq, tk⟩, gq⟩ := s
  cases gq with
  | nil => simp [GetFromGlobalQueue]
  | cons g t =>
    refine ⟨?_, ?_⟩
    · rw [getFromGlobalQueue_cons]
      simp only [runqputbatch, Option.toList]
      conv_rhs => rw [← List.take_append_drop 127 t]
      refine List.Perm.trans (List.Perm.cons g ?_) List.perm_middle.symm
      simp only [List.append_eq, List.nil_append]
      rw [List.append_assoc]
      exact List.Perm.append_left rq (takeDropPerm _ _ _)
    · rw [getFromGlobalQueue_cons]
      simp [runqputbatch]

/-- C10: the priorityScheduler and fifoScheduler behave identically to the
default schedulerImpl on every operation other than CheckGlobalQueue: their
NextTask, QueueTask, StealWork, GetFromLocalQueue and GetFromGlobalQueue
agree with the default implementation on all inputs (NextTask is the
promoted default method, and priorityScheduler.GetFromLocalQueue is an
explicit delegation). -/
theorem priority_fifo_delegate_to_default :
    (∀ r, priorityScheduler.nextTask r = schedulerImpl.nextTask r)
    ∧ (∀ s gp hasP next lcl, priorityScheduler.queueTask s gp hasP next lcl
        = schedulerImpl.queueTask s gp hasP next lcl)
    ∧ (∀ r now, priorityScheduler.stealW r now = schedulerImpl.stealW r now)
    ∧ (∀ pp, priorityScheduler.getFromLocalQueue pp
        = schedulerImpl.getFromLocalQueue pp)
    ∧ (∀ s, priorityScheduler.getFromGlobalQueue s
        = schedulerImpl.getFromGlobalQueue s)
    ∧ (∀ r, fifoScheduler.nextTask r = schedulerImpl.nextTask r)
    ∧ (∀ s gp hasP next lcl, fifoScheduler.queueTask s gp hasP next lcl
        = schedulerImpl.queueTask s gp hasP next lcl)
    ∧ (∀ r now, fifoScheduler.stealW r now = schedulerImpl.stealW r now)
    ∧ (∀ pp, fifoScheduler.getFromLocalQueue pp
        = schedulerImpl.getFromLocalQueue pp)
    ∧ (∀ s, fifoScheduler.getFromGlobalQueue s
        = schedulerImpl.getFromGlobalQueue s) :=
  ⟨fun _ => rfl, fun _ _ _ _ _ => rfl, fun _ _ => rfl, fun _ => rfl,
   fun _ => rfl, fun _ => rfl, fun _ _ _ _ _ => rfl, fun _ _ => rfl,
   fun _ => rfl, fun _ => rfl⟩

end Moriarty
